import Mathlib

set_option maxHeartbeats 2000000
set_option maxRecDepth 8000

/-! Formal model of the agent orchestration core of the `ai-code-mate-demo`
repository: `agent.py` (`_post_with_retries`, `_call_tool`,
`ask_agent_stream`) and the pure parts of `github_client.py`
(`switch_repo`, `get_current_repo`).  Network-dependent collaborators (the
chat-completion endpoint and the GitHub-backed client methods) are modelled
as explicit inputs: a per-turn script of model replies and an oracle giving
each underlying client call's outcome. -/

/-- JSON values as produced by `json.loads` and consumed by `json.dumps`.
Numbers are modelled as integers only (no input in this development contains
a float literal; the parser rejects them, see `parseNum`).  Object fields are
kept in Python dict insertion order. -/
inductive Json where
  | null
  | bool (b : Bool)
  | num (n : Int)
  | str (s : String)
  | arr (elems : List Json)
  | obj (fields : List (String × Json))

instance : Inhabited Json := ⟨Json.null⟩

/-- Hexadecimal digit character for `n < 16`. -/
def hexDigit (n : Nat) : Char :=
  if n < 10 then Char.ofNat ('0'.toNat + n) else Char.ofNat ('a'.toNat + (n - 10))

/-- Escape one character the way Python `json.dumps` does (default
`ensure_ascii=True`).  Characters above `0x7e` do not occur in any input of
this development, so only the ASCII escapes are modelled exactly; other
characters are emitted verbatim. -/
def escChar (c : Char) : List Char :=
  if c == '"' then ['\\', '"']
  else if c == '\\' then ['\\', '\\']
  else if c == '\n' then ['\\', 'n']
  else if c == '\t' then ['\\', 't']
  else if c == '\r' then ['\\', 'r']
  else if c == '\x08' then ['\\', 'b']
  else if c == '\x0c' then ['\\', 'f']
  else if c.toNat < 0x20 then
    ['\\', 'u', '0', '0', hexDigit (c.toNat / 16), hexDigit (c.toNat % 16)]
  else [c]

/-- Serialize a string literal as `json.dumps` does (quotes plus escapes). -/
def dumpStr (s : String) : String :=
  String.mk ('"' :: s.data.foldr (fun c acc => escChar c ++ acc) ['"'])

mutual

/-- Python `json.dumps` with its default separators `", "` and `": "`. -/
def dumps : Json → String
  | .null => "null"
  | .bool true => "true"
  | .bool false => "false"
  | .num n => toString n
  | .str s => dumpStr s
  | .arr xs => "[" ++ dumpElems xs ++ "]"
  | .obj fs => "\x7b" ++ dumpFields fs ++ "\x7d"

/-- Comma-separated array elements of `json.dumps`. -/
def dumpElems : List Json → String
  | [] => ""
  | [x] => dumps x
  | x :: y :: rest => dumps x ++ ", " ++ dumpElems (y :: rest)

/-- Comma-separated `"key": value` fields of `json.dumps`. -/
def dumpFields : List (String × Json) → String
  | [] => ""
  | [(k, v)] => dumpStr k ++ ": " ++ dumps v
  | (k, v) :: p :: rest => dumpStr k ++ ": " ++ dumps v ++ ", " ++ dumpFields (p :: rest)

end

/-- First value bound to key `k` in an ordered field list (parsed objects
have unique keys, see `objInsert`). -/
def lookupField (fs : List (String × Json)) (k : String) : Option Json :=
  (fs.find? (fun p => p.1 == k)).map (fun p => p.2)

/-- Python dict item insertion: an existing key keeps its position and gets
the new value, a new key is appended.  Used both for `json.loads` duplicate
keys (last value wins) and for `args["query"] = cleaned`. -/
def objInsert : List (String × Json) → String → Json → List (String × Json)
  | [], k, v => [(k, v)]
  | (k', v') :: rest, k, v =>
    if k' == k then (k', v) :: rest else (k', v') :: objInsert rest k v

/-- JSON whitespace accepted between tokens by `json.loads`. -/
def isJsonWs (c : Char) : Bool :=
  c == ' ' || c == '\t' || c == '\n' || c == '\r'

/-- Drop JSON whitespace. -/
def skipWs (cs : List Char) : List Char := cs.dropWhile isJsonWs

/-- Test whether `pat` appears at the head of `cs`. -/
def leadsWith : List Char → List Char → Bool
  | [], _ => true
  | _ :: _, [] => false
  | a :: as, b :: bs => a == b && leadsWith as bs

/-- Decode one escape sequence after a backslash; for `\uXXXX` the four hex
digits are consumed (surrogate-pair combination is not modelled; no input of
this development contains `\u` escapes). -/
def escDecode : Char → List Char → Option (Char × List Char)
  | '"', rest => some ('"', rest)
  | '\\', rest => some ('\\', rest)
  | '/', rest => some ('/', rest)
  | 'b', rest => some ('\x08', rest)
  | 'f', rest => some ('\x0c', rest)
  | 'n', rest => some ('\n', rest)
  | 'r', rest => some ('\r', rest)
  | 't', rest => some ('\t', rest)
  | 'u', rest =>
    match rest with
    | a :: b :: c :: d :: rest' =>
      let hv := fun (ch : Char) =>
        if '0' ≤ ch ∧ ch ≤ '9' then some (ch.toNat - '0'.toNat)
        else if 'a' ≤ ch ∧ ch ≤ 'f' then some (ch.toNat - 'a'.toNat + 10)
        else if 'A' ≤ ch ∧ ch ≤ 'F' then some (ch.toNat - 'A'.toNat + 10)
        else none
      match hv a, hv b, hv c, hv d with
      | some x, some y, some z, some w =>
        some (Char.ofNat (((x * 16 + y) * 16 + z) * 16 + w), rest')
      | _, _, _, _ => none
    | _ => none
  | _, _ => none

/-- Parse the body of a JSON string literal (after the opening quote), as
`json.loads` does in strict mode: raw control characters are rejected. -/
def parseStrBody : Nat → List Char → Option (String × List Char)
  | 0, _ => none
  | _, [] => none
  | fuel + 1, c :: rest =>
    if c == '"' then some ("", rest)
    else if c == '\\' then
      match rest with
      | [] => none
      | e :: rest2 =>
        match escDecode e rest2 with
        | none => none
        | some (ch, rest3) =>
          (parseStrBody fuel rest3).map (fun p => (String.mk (ch :: p.1.data), p.2))
    else if c.toNat < 0x20 then none
    else (parseStrBody fuel rest).map (fun p => (String.mk (c :: p.1.data), p.2))

/-- Convert a run of decimal digits to a natural number. -/
def digitsToNat (ds : List Char) : Nat :=
  ds.foldl (fun acc c => acc * 10 + (c.toNat - '0'.toNat)) 0

/-- Parse a JSON number.  Only integers are modelled: a fraction or exponent
makes the parse fail (no input of this development contains a float, and a
failed parse is exactly how the surrounding code treats text it cannot
decode).  Leading zeros are rejected as `json.loads` rejects them. -/
def parseNum (cs : List Char) : Option (Json × List Char) :=
  let (neg, cs1) := match cs with
    | '-' :: rest => (true, rest)
    | _ => (false, cs)
  let ds := cs1.takeWhile (fun c => c.isDigit)
  let rest := cs1.dropWhile (fun c => c.isDigit)
  if ds.isEmpty then none
  else if ds.length > 1 ∧ ds.headD '0' == '0' then none
  else match rest with
    | '.' :: _ => none
    | 'e' :: _ => none
    | 'E' :: _ => none
    | _ =>
      let n : Int := Int.ofNat (digitsToNat ds)
      some (.num (if neg then -n else n), rest)

mutual

/-- Recursive-descent JSON value parser modelling `json.loads`; the fuel is
an upper bound on recursion depth, dispensed generously by `jsonParse`. -/
def parseVal : Nat → List Char → Option (Json × List Char)
  | 0, _ => none
  | fuel + 1, cs =>
    match skipWs cs with
    | [] => none
    | c :: rest =>
      if c == '\x7b' then
        match skipWs rest with
        | '\x7d' :: r => some (.obj [], r)
        | r => parseObjBody fuel r []
      else if c == '[' then
        match skipWs rest with
        | ']' :: r => some (.arr [], r)
        | r => parseArrBody fuel r []
      else if c == '"' then
        (parseStrBody (rest.length + 1) rest).map (fun p => (Json.str p.1, p.2))
      else if leadsWith ['t', 'r', 'u', 'e'] (c :: rest) then
        some (.bool true, rest.drop 3)
      else if leadsWith ['f', 'a', 'l', 's', 'e'] (c :: rest) then
        some (.bool false, rest.drop 4)
      else if leadsWith ['n', 'u', 'l', 'l'] (c :: rest) then
        some (.null, rest.drop 3)
      else parseNum (c :: rest)

/-- Parse object members after the opening brace (not the empty object). -/
def parseObjBody : Nat → List Char → List (String × Json) →
    Option (Json × List Char)
  | 0, _, _ => none
  | fuel + 1, cs, acc =>
    match skipWs cs with
    | '"' :: rest =>
      match parseStrBody (rest.length + 1) rest with
      | none => none
      | some (k, r1) =>
        match skipWs r1 with
        | ':' :: r2 =>
          match parseVal fuel r2 with
          | none => none
          | some (v, r3) =>
            let acc' := objInsert acc k v
            match skipWs r3 with
            | ',' :: r4 => parseObjBody fuel r4 acc'
            | '\x7d' :: r4 => some (.obj acc', r4)
            | _ => none
        | _ => none
    | _ => none

/-- Parse array elements after the opening bracket (not the empty array). -/
def parseArrBody : Nat → List Char → List Json → Option (Json × List Char)
  | 0, _, _ => none
  | fuel + 1, cs, acc =>
    match parseVal fuel cs with
    | none => none
    | some (v, r1) =>
      match skipWs r1 with
      | ',' :: r2 => parseArrBody fuel r2 (acc ++ [v])
      | ']' :: r2 => some (.arr (acc ++ [v]), r2)
      | _ => none

end

/-- Python `json.loads`: parse one JSON value and require only whitespace to
follow; anything else raises, modelled as `none`. -/
def jsonParse (s : String) : Option Json :=
  match parseVal (2 * s.data.length + 4) s.data with
  | some (j, rest) => if (skipWs rest).isEmpty then some j else none
  | none => none

/-- Whitespace characters stripped by Python `str.strip()` and matched by the
regex class `\s` (ASCII range; no input of this development contains
non-ASCII whitespace). -/
def isPyWs (c : Char) : Bool :=
  c == ' ' || c == '\t' || c == '\n' || c == '\r' || c == '\x0b' || c == '\x0c'

/-- Python `str.strip()` on a character list. -/
def stripL (l : List Char) : List Char :=
  ((l.dropWhile isPyWs).reverse.dropWhile isPyWs).reverse

/-- Python `str.strip()`. -/
def pyStrip (s : String) : String := String.mk (stripL s.data)

/-- Concatenation of a list of strings (`"".join`). -/
def strJoin (l : List String) : String := String.mk (l.map String.data).flatten

/-- Python slicing `s[:n]` for `n ≥ 0`. -/
def pyTake (n : Nat) (s : String) : String := String.mk (s.data.take n)

/-- Index of the first occurrence of `c` (Python `str.find`, as an option). -/
def firstIdx (c : Char) : List Char → Option Nat
  | [] => none
  | x :: xs => if x == c then some 0 else (firstIdx c xs).map (fun i => i + 1)

/-- Index of the last occurrence of `c` (Python `str.rfind`, as an option). -/
def lastIdx (c : Char) (l : List Char) : Option Nat :=
  (firstIdx c l.reverse).map (fun i => l.length - 1 - i)

/-- Normalize one Python slice bound against a sequence of length `n`
(negative indices count from the end, then both are clamped to `[0, n]`). -/
def pySliceIdx (n : Nat) (i : Int) : Nat :=
  if i < 0 then (max 0 ((n : Int) + i)).toNat else min i.toNat n

/-- Python slice `l[a:b]` with full negative-index semantics. -/
def pySlice (l : List Char) (a b : Int) : List Char :=
  (l.take (pySliceIdx l.length b)).drop (pySliceIdx l.length a)

/-- Candidate-JSON extraction of `ask_agent_stream` step 3
(`agent.py` lines 390-393): `stripped[stripped.find("\x7b") : stripped.rfind("\x7d") + 1]`
including Python's `-1` results for absent braces, which flow into the slice
as negative indices. -/
def pyExtract (s : String) : String :=
  let l := s.data
  let a : Int := match firstIdx '\x7b' l with
    | some i => (i : Int)
    | none => -1
  let b : Int := match lastIdx '\x7d' l with
    | some i => (i : Int)
    | none => -1
  String.mk (pySlice l a (b + 1))

/-- Substring test on character lists (Python `needle in hay`). -/
def hasSubL (n : List Char) : List Char → Bool
  | [] => leadsWith n []
  | c :: rest => leadsWith n (c :: rest) || hasSubL n rest

/-- Substring test (Python `needle in hay`). -/
def hasSub (needle hay : String) : Bool := hasSubL needle.data hay.data

/-- Python `str.replace`: left-to-right, non-overlapping; the fuel equals the
subject length, which suffices because each step consumes at least one
character of the subject. -/
def replaceFuel (old new : List Char) : Nat → List Char → List Char
  | _, [] => []
  | 0, l => l
  | fuel + 1, c :: rest =>
    if !old.isEmpty && leadsWith old (c :: rest) then
      new ++ replaceFuel old new fuel ((c :: rest).drop old.length)
    else
      c :: replaceFuel old new fuel rest

/-- Python `s.replace(old, new)` for nonempty `old`. -/
def pyReplace (old new s : String) : String :=
  String.mk (replaceFuel old.data new.data s.data.length s.data)

/-- State machine for `re.sub(r"\s+", " ", s)`: every maximal run of
whitespace becomes one space (the flag records whether the previous character
was whitespace). -/
def collapseGo : Bool → List Char → List Char
  | _, [] => []
  | prevWs, c :: rest =>
    if isPyWs c then
      if prevWs then collapseGo true rest else ' ' :: collapseGo true rest
    else c :: collapseGo false rest

/-- Python `re.sub(r"\s+", " ", s)`. -/
def collapseWs (s : String) : String := String.mk (collapseGo false s.data)

/-- Membership in the regex class `\w` (ASCII view, matching every input of
this development). -/
def isWordCh (c : Char) : Bool := c.isAlpha || c.isDigit || c == '_'

/-- One character of the `agent.py` line 428 substitution, which turns every
character that is not a word character, dot, hyphen, slash or space into a
space. -/
def cleanChar (c : Char) : Char :=
  if isWordCh c || c == '.' || c == '-' || c == '/' || c == ' ' then c else ' '

mutual

/-- Python `repr()` of a decoded-JSON value, used only inside `pyStr` for
containers (approximate for exotic strings; no claim depends on it). -/
def pyRepr : Json → String
  | .null => "None"
  | .bool true => "True"
  | .bool false => "False"
  | .num n => toString n
  | .str s => "\x27" ++ s ++ "\x27"
  | .arr xs => "[" ++ pyReprElems xs ++ "]"
  | .obj fs => "\x7b" ++ pyReprFields fs ++ "\x7d"

/-- Comma-separated list elements of `repr()`. -/
def pyReprElems : List Json → String
  | [] => ""
  | [x] => pyRepr x
  | x :: y :: rest => pyRepr x ++ ", " ++ pyReprElems (y :: rest)

/-- Comma-separated dict items of `repr()`. -/
def pyReprFields : List (String × Json) → String
  | [] => ""
  | [(k, v)] => "\x27" ++ k ++ "\x27: " ++ pyRepr v
  | (k, v) :: p :: rest => "\x27" ++ k ++ "\x27: " ++ pyRepr v ++ ", " ++ pyReprFields (p :: rest)

end

/-- Python `str()` / f-string formatting of a decoded-JSON value. -/
def pyStr : Json → String
  | .null => "None"
  | .bool true => "True"
  | .bool false => "False"
  | .num n => toString n
  | .str s => s
  | .arr xs => pyRepr (.arr xs)
  | .obj fs => pyRepr (.obj fs)

/-- Test whether a JSON value is the string `s` (Python `value == "s"`). -/
def jsonIsStr (j : Json) (s : String) : Bool :=
  match j with
  | .str t => t == s
  | _ => false

/-- Python `d.get(k, default)` on a decoded JSON value known to be a dict at
every reachable call site (`jsonParse` only yields an object when the text
starts with a brace, see `fallbackStep`); the non-dict fallback returns the
default and is unreachable there. -/
def jgetD (j : Json) (k : String) (d : Json) : Json :=
  match j with
  | .obj fs => (lookupField fs k).getD d
  | _ => d

/-- Mutable fields of the process-wide `GitHubClient` instance
(`github_client.py` lines 24-25).  The values are decoded-Python values: the
environment may leave them unset (`Json.null` models Python `None`) and
`switch_repo` stores whatever values the tool arguments carried. -/
structure GhState where
  currentOwner : Json
  currentRepo : Json

/-- `GitHubClient.switch_repo` (`github_client.py` lines 27-31): assign both
fields, return the status message. -/
def switchRepo (st : GhState) (owner repo : Json) : String × GhState :=
  ("Switched to repository: " ++ pyStr owner ++ "/" ++ pyStr repo,
   { st with currentOwner := owner, currentRepo := repo })

/-- `GitHubClient.get_current_repo` (`github_client.py` lines 33-35). -/
def getCurrentRepo (st : GhState) : String :=
  pyStr st.currentOwner ++ "/" ++ pyStr st.currentRepo

/-- Outcomes of the network-touching `GitHubClient` methods, which the spec
treats as external collaborators specified only at their interface boundary.
`Except.error e` models the call raising an exception whose `str()` is `e`;
`Except.ok` carries the returned value with the return type each method has
in `github_client.py` (`search_code` always returns a dict, `get_file_contents`
always returns a string, and so on). -/
structure GhOracle where
  searchCode : Json → Json → Except String (List (String × Json))
  getFileContents : Json → Except String String
  listFiles : Json → Except String Json
  getRepoInfo : Except String Json
  listAllFiles : Except String (List String)

/-- Python `args.get(k, default)` inside `_call_tool`: on a non-dict
argument value the attribute lookup raises (`AttributeError`), which the
enclosing `try` of `_call_tool` converts to a failure result. -/
def argGet (args : Json) (k : String) (d : Json) : Except String Json :=
  match args with
  | .obj fs => .ok ((lookupField fs k).getD d)
  | _ => .error "AttributeError: args object has no attribute get"

/-- Nested read `result.get("content_matches", \x7b\x7d).get("items", [])` of
`_call_tool` (`agent.py` line 212); a non-dict `content_matches` value makes
the second `.get` raise. -/
def contentMatchesItems (result : List (String × Json)) : Except String Json :=
  match (lookupField result "content_matches").getD (.obj []) with
  | .obj fs => .ok ((lookupField fs "items").getD (.arr []))
  | _ => .error "AttributeError: content_matches object has no attribute get"

/-- Body of `_call_tool` (`agent.py` lines 200-241) before its `except`
clause: dispatch on the tool name, call the client, shape the result dict.
An unknown name raises `ValueError(f"Unknown tool: ...")` (line 240). -/
def callToolCore (o : GhOracle) (st : GhState) (tool : Json) (args : Json) :
    Except String (Json × GhState) :=
  if jsonIsStr tool "search_code" then
    match argGet args "query" (.str "") with
    | .error e => .error e
    | .ok query =>
      match argGet args "path" (.str "") with
      | .error e => .error e
      | .ok path =>
        match o.searchCode query path with
        | .error e => .error e
        | .ok result =>
          match contentMatchesItems result with
          | .error e => .error e
          | .ok items =>
            .ok (.obj [("query", query), ("path", path),
              ("total_matches", (lookupField result "total_count").getD (.num 0)),
              ("filename_matches",
                (lookupField result "filename_matches").getD (.arr [])),
              ("content_matches", items)], st)
  else if jsonIsStr tool "get_file_contents" then
    match argGet args "path" (.str "") with
    | .error e => .error e
    | .ok path =>
      match o.getFileContents path with
      | .error e => .error e
      | .ok content => .ok (.obj [("path", path), ("content", .str content)], st)
  else if jsonIsStr tool "list_files" then
    match argGet args "path" (.str ".") with
    | .error e => .error e
    | .ok path =>
      match o.listFiles path with
      | .error e => .error e
      | .ok files => .ok (.obj [("path", path), ("files", files)], st)
  else if jsonIsStr tool "get_repo_info" then
    match o.getRepoInfo with
    | .error e => .error e
    | .ok info => .ok (.obj [("repo_info", info)], st)
  else if jsonIsStr tool "switch_repo" then
    match argGet args "owner" (.str "") with
    | .error e => .error e
    | .ok owner =>
      match argGet args "repo" (.str "") with
      | .error e => .error e
      | .ok repo =>
        let r := switchRepo st owner repo
        .ok (.obj [("message", .str r.1),
          ("new_repo", .str (pyStr owner ++ "/" ++ pyStr repo))], r.2)
  else if jsonIsStr tool "list_all_files" then
    match o.listAllFiles with
    | .error e => .error e
    | .ok files =>
      .ok (.obj [("files", .arr (files.map .str)), ("count", .num files.length)], st)
  else
    .error ("Unknown tool: " ++ pyStr tool)

/-- Recognized tool names, in the order tested by `_call_tool`. -/
def isKnownTool (tool : Json) : Bool :=
  jsonIsStr tool "search_code" || jsonIsStr tool "get_file_contents" ||
  jsonIsStr tool "list_files" || jsonIsStr tool "get_repo_info" ||
  jsonIsStr tool "switch_repo" || jsonIsStr tool "list_all_files"

/-- Failure result built by the `except` clause of `_call_tool`
(`agent.py` lines 242-243). -/
def toolFailure (e : String) : Json :=
  .obj [("error", .str ("Tool call failed: " ++ e))]

/-- Whole `_call_tool`: the body with every exception converted to the
failure dict.  The state is threaded explicitly (the Python client object is
process-wide mutable state); no dispatch path mutates it before raising, so
the failure case returns the state unchanged. -/
def callTool (o : GhOracle) (st : GhState) (tool : Json) (args : Json) :
    Json × GhState :=
  match callToolCore o st tool args with
  | .ok r => r
  | .error e => (toolFailure e, st)

/-- One native tool-call record of a blocking reply
(`message.tool_calls[i]`, see `agent.py` lines 344-347): the correlation id,
the function name and the JSON-encoded argument string, each possibly
absent. -/
structure ToolCallRec where
  id : Option String
  name : Option String
  arguments : Option String
deriving DecidableEq

/-- One message of the conversation history (`Message` of the spec):
`toolCalls` is nonempty only on assistant turns that requested native tools;
`toolCallId` and `name` are set only on tool turns. -/
structure Message where
  role : String
  content : String
  toolCalls : List ToolCallRec
  toolCallId : Option String
  name : Option String
deriving DecidableEq

/-- Externally observable output unit of one loop execution (`AgentEvent`):
the dict variants yielded by `ask_agent_stream`.  A tool-result event carries
its raw payload only when `show_raw_tool` was passed. -/
inductive Event where
  | modelChunk (text : String)
  | toolCall (tool : Json) (args : Json)
  | toolResult (tool : Json) (preview : String) (raw : Option Json)
  | reasoning (text : String)
  | final (text : String)

/-- Terminations of one streaming model call: normal end of stream, an
`HTTPError` carrying its response status (`agent.py` lines 277-284), or any
other exception (line 285). -/
inductive StreamEnd where
  | done
  | httpErr (status : Option Nat) (msg : String)
  | exn (msg : String)

/-- One streaming reply: the nonempty content deltas that arrived (possibly
followed by a failure).  `_groq_chat_stream` yields each truthy delta and
finally the assembled text, which equals the concatenation of the chunks. -/
structure StreamReply where
  chunks : List String
  ending : StreamEnd

/-- Outcome of the blocking tool-call recovery request
(`agent.py` lines 331-334): a parsed message (content and `tool_calls`), or
any exception while posting or decoding it. -/
inductive BlockReply where
  | ok (content : String) (toolCalls : List ToolCallRec)
  | exn (msg : String)

/-- Environment behavior for one loop iteration: the streaming reply, and
the blocking reply that would be returned were the native tool-call check
issued this iteration. -/
structure TurnScript where
  stream : StreamReply
  block : BlockReply

/-- Steering message appended after native tool calls (`agent.py` line 382). -/
def steerNative : Message :=
  ⟨"user",
   "Continue reasoning with the tool results above and provide next step or final answer.",
   [], none, none⟩

/-- Steering message appended after a text-embedded tool call
(`agent.py` line 456; note the singular "result", unlike the native path). -/
def steerFallback : Message :=
  ⟨"user",
   "Continue reasoning with the tool result above and provide next step or final answer.",
   [], none, none⟩

/-- Steering message appended after an entirely empty reply
(`agent.py` lines 398-401). -/
def steerConcise : Message :=
  ⟨"user",
   "Please provide a concise final answer summarizing findings and next steps.",
   [], none, none⟩

/-- Tool message appended on the native path (`agent.py` lines 365-370):
the result dump truncated to 4000 characters. -/
def nativeToolMsg (tc : ToolCallRec) (result : Json) : Message :=
  ⟨"tool", pyTake 4000 (dumps result), [], tc.id, tc.name⟩

/-- Assistant message appended on the text-embedded path
(`agent.py` line 455): a `TOOL_RESULT: ` marker followed by the result dump
truncated to 4000 characters. -/
def fallbackToolMsg (result : Json) : Message :=
  ⟨"assistant", "TOOL_RESULT: " ++ pyTake 4000 (dumps result), [], none, none⟩

/-- Assistant message recording the native tool calls (`agent.py` lines
338-342). -/
def assistantToolCallMsg (content : String) (tcs : List ToolCallRec) : Message :=
  ⟨"assistant", content, tcs, none, none⟩

/-- Preview text of a tool-result event (`agent.py` lines 358 and 441):
the dump truncated to 1200 characters, with an ellipsis when truncation
happened. -/
def previewOf (result : Json) : String :=
  let d := dumps result
  pyTake 1200 d ++ (if 1200 < d.data.length then "..." else "")

/-- Tool name of a native call as the decoded value `func.get("name")`. -/
def toolNameJson (n : Option String) : Json :=
  match n with
  | some s => .str s
  | none => .null

/-- Argument string of a native call: `func.get("arguments") or "\x7b\x7d"`
(Python `or` replaces both a missing and an empty value). -/
def argStrOf (tc : ToolCallRec) : String :=
  match tc.arguments with
  | some s => if s == "" then "\x7b\x7d" else s
  | none => "\x7b\x7d"

/-- Decode a native call's arguments (`agent.py` lines 348-351): a failed
`json.loads` falls back to the empty dict. -/
def decodeArgs (s : String) : Json := (jsonParse s).getD (.obj [])

/-- Accumulated effect of dispatching a batch of native tool calls. -/
structure NativeAcc where
  events : List Event
  newMsgs : List Message
  gh : GhState

/-- Sequential dispatch of native tool calls (`agent.py` lines 344-379):
for each call, a tool-call event, the `_call_tool` invocation, a tool-result
event, and a truncated tool message.  The per-call `except` branch (lines
371-379) is unreachable in this model because `callTool` and `dumps` are
total. -/
def nativeCalls (o : GhOracle) (showRaw : Bool) : GhState → List ToolCallRec → NativeAcc
  | st, [] => ⟨[], [], st⟩
  | st, tc :: rest =>
    let toolJ := toolNameJson tc.name
    let args := decodeArgs (argStrOf tc)
    let pr := callTool o st toolJ args
    let acc := nativeCalls o showRaw pr.2 rest
    ⟨.toolCall toolJ args ::
       .toolResult toolJ (previewOf pr.1) (if showRaw then some pr.1 else none) ::
       acc.events,
     nativeToolMsg tc pr.1 :: acc.newMsgs,
     acc.gh⟩

/-- Result of one loop iteration: yield a final event and return, let an
uncaught exception escape the generator, or append messages and continue. -/
inductive IterRes where
  | finishI (evs : List Event)
  | crashI (evs : List Event)
  | goI (evs : List Event) (newMsgs : List Message) (st' : GhState)

/-- Prepend already-yielded events to an iteration result. -/
def attachEv (pre : List Event) : IterRes → IterRes
  | .finishI evs => .finishI (pre ++ evs)
  | .crashI evs => .crashI (pre ++ evs)
  | .goI evs m st => .goI (pre ++ evs) m st

/-- Strategy note yielded after query normalization (`agent.py` line 435). -/
def strategyNote : Event := .reasoning "Strategy: filename match + content search"

/-- Outcome of the pre-dispatch normalization block. -/
inductive NormOut where
  | crashN
  | okN (revs : List Event) (args' : Json)

/-- Pre-dispatch query normalization of the text-embedded path
(`agent.py` lines 419-435), applied only to `search_code`.  The block runs
outside any `try`: a non-dict `args` makes `args.get` raise
(`AttributeError`) and a non-string query value makes `re.sub` raise
(`TypeError`); both escape the generator, modelled as `crashN`. -/
def searchNormalize (tool args : Json) : NormOut :=
  if jsonIsStr tool "search_code" then
    match args with
    | .obj fs =>
      match (lookupField fs "query").getD (.str "") with
      | .str rawQ =>
        let normalized0 := pyStrip (collapseWs rawQ)
        let normalized :=
          if hasSub ".py" normalized0 || !hasSub " " normalized0 then
            pyReplace "\\" "/" (pyReplace "\x60" "" (pyReplace " \x60" "" normalized0))
          else normalized0
        let cleaned := pyStrip (String.mk (normalized.data.map cleanChar))
        if cleaned ≠ "" ∧ cleaned ≠ rawQ then
          .okN [.reasoning ("Normalized query from \x27" ++ rawQ ++ "\x27 to \x27" ++
                  cleaned ++ "\x27 for reliable search"), strategyNote]
               (.obj (objInsert fs "query" (.str cleaned)))
        else
          .okN [.reasoning ("Using query as-is: \x27" ++ rawQ ++ "\x27"), strategyNote] args
      | _ => .crashN
    | _ => .crashN
  else .okN [] args

/-- Event text of a `final_answer` instruction's `answer` field; a
non-string decoded value is rendered with `pyStr` here, whereas Python would
carry the raw value in the event dict (no claim involves a non-string
answer). -/
def eventTextOf : Json → String
  | .str s => s
  | v => pyStr v

/-- Steps 3-5 of the loop body (`agent.py` lines 388-456): locate a JSON
object between the first opening and last closing brace of the stripped
text, and either steer-and-retry (empty text), emit the text as the final
answer (no parse / unknown action), terminate on `final_answer`, or
normalize, dispatch and continue on `_call_tool`.  A successful top-level
parse of the extracted text is always an object because the extract starts
with a brace, so the `obj.get` calls cannot raise. -/
def fallbackStep (o : GhOracle) (showRaw : Bool) (st : GhState) (assembled : String) :
    IterRes :=
  let stripped := pyStrip assembled
  match jsonParse (pyExtract stripped) with
  | none =>
    if stripped == "" then .goI [] [steerConcise] st
    else .finishI [.final assembled]
  | some j =>
    let action := jgetD j "action" .null
    if jsonIsStr action "final_answer" then
      .finishI [.final (eventTextOf (jgetD j "answer" (.str "")))]
    else if !jsonIsStr action "_call_tool" then
      .finishI [.final assembled]
    else
      let tool := jgetD j "tool" .null
      let args := jgetD j "args" (.obj [])
      match searchNormalize tool args with
      | .crashN => .crashI []
      | .okN revs args' =>
        let pr := callTool o st tool args'
        .goI (revs ++ [.toolCall tool args',
                .toolResult tool (previewOf pr.1) (if showRaw then some pr.1 else none)])
             [fallbackToolMsg pr.1, steerFallback] pr.2

/-- Final diagnostic text for a streaming-phase `HTTPError`
(`agent.py` lines 277-282). -/
def httpFinalText (status : Option Nat) (emsg : String) : String :=
  if status == some 429 then
    "The upstream model API returned 429 Too Many Requests. Please wait a few seconds and try again."
  else "Upstream HTTP error: " ++ emsg

/-- Model-chunk events of one streaming reply: every nonempty delta is
yielded as it arrives (`agent.py` lines 191-193 and 272-274). -/
def chunkEvents (chunks : List String) : List Event :=
  (chunks.filter (fun c => !(c == ""))).map Event.modelChunk

/-- Assembled text of a streaming reply (concatenation of all deltas). -/
def assembledOf (chunks : List String) : String := strJoin chunks

/-- One iteration of the `while True` loop of `ask_agent_stream`, paired
with the number of blocking native-check requests it issued (0 or 1).  A
stream failure terminates with a diagnostic final event; an empty stripped
reply triggers the single blocking native tool-call check, whose calls are
dispatched when present; everything else flows into `fallbackStep`. -/
def iterStep (o : GhOracle) (showRaw : Bool) (t : TurnScript) (st : GhState) :
    IterRes × Nat :=
  let chEvs := chunkEvents t.stream.chunks
  match t.stream.ending with
  | .httpErr status emsg => (.finishI (chEvs ++ [.final (httpFinalText status emsg)]), 0)
  | .exn emsg =>
    (.finishI (chEvs ++ [.final ("Unexpected error while streaming: " ++ emsg)]), 0)
  | .done =>
    let assembled := assembledOf t.stream.chunks
    if pyStrip assembled == "" then
      match t.block with
      | .ok content tcs =>
        if tcs.isEmpty then
          (attachEv chEvs (fallbackStep o showRaw st assembled), 1)
        else
          let acc := nativeCalls o showRaw st tcs
          (.goI (chEvs ++ acc.events)
            (assistantToolCallMsg content tcs :: acc.newMsgs ++ [steerNative]) acc.gh, 1)
      | .exn _ => (attachEv chEvs (fallbackStep o showRaw st assembled), 1)
    else
      (attachEv chEvs (fallbackStep o showRaw st assembled), 0)

/-- Observable trace of one loop execution: the yielded events, the final
conversation state, the final client state, and how many blocking
native-check requests were issued. -/
structure RunOut where
  events : List Event
  msgs : List Message
  gh : GhState
  blockCalls : Nat

/-- How a loop execution ended: the generator returned after yielding a
final event, an uncaught exception escaped it, or the environment script ran
out (the execution would keep iterating beyond the modelled horizon). -/
inductive Outcome where
  | finished (out : RunOut)
  | crashed (out : RunOut)
  | outOfScript (out : RunOut)

/-- Trace of an outcome. -/
def Outcome.out : Outcome → RunOut
  | .finished o => o
  | .crashed o => o
  | .outOfScript o => o

/-- Prepend one iteration's events and blocking-request count to the trace
of the remaining run. -/
def RunOut.prepend (evs : List Event) (bc : Nat) (r : RunOut) : RunOut :=
  ⟨evs ++ r.events, r.msgs, r.gh, bc + r.blockCalls⟩

/-- Prepend one iteration's events and blocking-request count. -/
def Outcome.prepend (evs : List Event) (bc : Nat) : Outcome → Outcome
  | .finished o => .finished (o.prepend evs bc)
  | .crashed o => .crashed (o.prepend evs bc)
  | .outOfScript o => .outOfScript (o.prepend evs bc)

/-- The `while True` loop of `ask_agent_stream` (`agent.py` lines 264-457),
driven by the environment script, one `TurnScript` per iteration. -/
def runLoop (o : GhOracle) (showRaw : Bool) :
    List TurnScript → GhState → List Message → Outcome
  | [], st, msgs => .outOfScript ⟨[], msgs, st, 0⟩
  | t :: rest, st, msgs =>
    match iterStep o showRaw t st with
    | (.finishI evs, bc) => .finished ⟨evs, msgs, st, bc⟩
    | (.crashI evs, bc) => .crashed ⟨evs, msgs, st, bc⟩
    | (.goI evs newMsgs st', bc) =>
      Outcome.prepend evs bc (runLoop o showRaw rest st' (msgs ++ newMsgs))

/-- Text of `SYSTEM_PROMPT` (`agent.py` lines 85-109) before the
`current_repo` placeholder. -/
def sysPromptA : String :=
  "\nYou are AI Code Mate, an expert software engineer and code analyst specializing in GitHub repository analysis.\n\nCORE CAPABILITIES:\n- Analyze code for bugs, security issues, and performance problems\n- Explain complex code patterns and architectures\n- Suggest improvements and best practices\n- Navigate large codebases efficiently\n- Provide detailed technical explanations\n\nRESPONSE FORMATTING:\n- Use clear, structured responses with headers and bullet points\n- Include code examples when relevant\n- Provide actionable recommendations\n- Explain technical concepts in an accessible way\n- Use markdown formatting for better readability\n\nCURRENT REPOSITORY: "

/-- Text of `SYSTEM_PROMPT` after the `current_repo` placeholder. -/
def sysPromptB : String :=
  "\n\nWhen analyzing code, follow this approach:\n1. First understand the context and purpose\n2. Identify potential issues or areas for improvement\n3. Provide specific, actionable recommendations\n4. Include relevant code snippets with explanations\n"

/-- Text of `TOOL_DOCS_TEXT` (`agent.py` lines 111-124). -/
def toolDocsText : String :=
  "\nAVAILABLE GITHUB TOOLS:\n1) search_code(query, path=\"\") - Search for code patterns, functions, or text in the repository\n2) get_file_contents(path) - Read the complete contents of a specific file\n3) list_files(path=\".\") - List all files in a directory\n4) get_repo_info() - Get repository metadata and statistics\n5) switch_repo(owner, repo) - Switch to a different GitHub repository\n\nUSAGE EXAMPLES:\n- To find bugs: search_code(\"bug\", \"src/\")\n- To analyze a file: get_file_contents(\"src/main.py\")\n- To explore structure: list_files(\"src/\")\n- To switch repos: switch_repo(\"owner\", \"repo-name\")\n"

/-- System message content: `SYSTEM_PROMPT.format(current_repo=...)` plus a
newline plus the tool docs (`agent.py` lines 258-261). -/
def systemPromptFor (repo : String) : String :=
  sysPromptA ++ repo ++ sysPromptB ++ "\n" ++ toolDocsText

/-- Initial conversation state of `ask_agent_stream` (`agent.py` lines
255-262): the caller's history, a system message inserted in front, the user
question appended. -/
def initMessages (st : GhState) (question : String) (hist : List Message) :
    List Message :=
  ⟨"system", systemPromptFor (getCurrentRepo st), [], none, none⟩ ::
    hist ++ [⟨"user", question, [], none, none⟩]

/-- Whole `ask_agent_stream` over a scripted environment.  The `debug`
parameter of the Python function only toggles logging and has no effect on
the yielded events or the conversation state, so it is not modelled. -/
def askAgentStream (o : GhOracle) (script : List TurnScript) (st : GhState)
    (question : String) (hist : List Message) (showRaw : Bool) : Outcome :=
  runLoop o showRaw script st (initMessages st question hist)

/-- One HTTP attempt's outcome as seen by `_post_with_retries`: either a
completed response (status plus the rate-limit headers the code reads), or a
network-level `requests` exception.  The two casings of `Retry-After` hit
the same entry of the case-insensitive `requests` header dict, so one field
models both lookups. -/
inductive HttpAttempt where
  | response (status : Nat) (retryAfterHdr : Option String) (resetAfterHdr : Option String)
  | netErr (msg : String)

/-- Errors `_post_with_retries` can raise: an `HTTPError` carrying its
response status, or a network-level error. -/
inductive ReqError where
  | http (status : Nat)
  | net (msg : String)
deriving DecidableEq

/-- Python truthiness chaining for header values: an absent or empty value
falls through to the next lookup. -/
def firstTruthy (a b : Option String) : Option String :=
  match a with
  | some s => if s == "" then (match b with | some t => if t == "" then none else some t | none => none) else some s
  | none => match b with | some t => if t == "" then none else some t | none => none

/-- Python `float(s)` on the decimal literals that occur as retry hints:
optional sign, digits, optional fraction.  Exponent and special forms are
not modelled and fail, which the code treats like an unparseable hint. -/
def parseFloatQ (s : String) : Option ℚ :=
  let l := (pyStrip s).data
  let (neg, l1) := match l with
    | '-' :: rest => (true, rest)
    | '+' :: rest => (false, rest)
    | _ => (false, l)
  let intPart := l1.takeWhile (fun c => c.isDigit)
  let rest := l1.dropWhile (fun c => c.isDigit)
  let (fracPart, rest2) : List Char × List Char := match rest with
    | '.' :: r => (r.takeWhile (fun c : Char => c.isDigit), r.dropWhile (fun c : Char => c.isDigit))
    | _ => ([], rest)
  if rest2.isEmpty ∧ ¬(intPart.isEmpty ∧ fracPart.isEmpty) ∧
      (rest.isEmpty ∨ rest.headD ' ' == '.') then
    let q : ℚ := (digitsToNat intPart : ℚ) +
      (digitsToNat fracPart : ℚ) / ((10 : ℚ) ^ fracPart.length)
    some (if neg then -q else q)
  else none

/-- Exponential backoff with jitter (`agent.py` lines 52, 54, 62, 75):
`min(30, 2 ** attempt + jitter)` where `jitter` is the `random.uniform(0,
0.5)` draw of that attempt. -/
def backoffSleep (attempt : Nat) (jitter : ℚ) : ℚ :=
  min 30 ((2 : ℚ) ^ attempt + jitter)

/-- Sleep duration chosen when the attempt leads to a retry: a 429 response
first consults the retry hint (falling back to backoff when the hint does
not parse as a float); a 5xx response or a network error uses backoff. -/
def sleepForAttempt (att : HttpAttempt) (attempt : Nat) (jitter : ℚ) : ℚ :=
  match att with
  | .netErr _ => backoffSleep attempt jitter
  | .response s ra xra =>
    if s == 429 then
      match firstTruthy ra xra with
      | some h => (parseFloatQ h).getD (backoffSleep attempt jitter)
      | none => backoffSleep attempt jitter
    else backoffSleep attempt jitter

/-- What one loop iteration of `_post_with_retries` does with its attempt:
sleep and retry (429, 5xx, network error), raise immediately after
`raise_for_status` (other 4xx), or return the response. -/
inductive StepKind where
  | retryWith (sleep : ℚ) (err : ReqError)
  | raiseNow (err : ReqError)
  | succeedNow

/-- Classify attempt number `a` of the given script. -/
def stepOf (script : Nat → HttpAttempt) (jitter : Nat → ℚ) (a : Nat) : StepKind :=
  match script a with
  | .netErr m => .retryWith (sleepForAttempt (.netErr m) a (jitter a)) (.net m)
  | .response s ra xra =>
    if s == 429 then .retryWith (sleepForAttempt (.response s ra xra) a (jitter a)) (.http 429)
    else if 500 ≤ s ∧ s < 600 then
      .retryWith (sleepForAttempt (.response s ra xra) a (jitter a)) (.http s)
    else if 400 ≤ s then .raiseNow (.http s)
    else .succeedNow

/-- How `_post_with_retries` ended: returned the response of some attempt,
raised an error, or returned `None` (falling off the loop with
`last_exc = None`, possible only when `max_retries = 0`). -/
inductive PostResult where
  | success (attemptIdx : Nat)
  | raised (e : ReqError)
  | noneReturned
deriving DecidableEq

/-- Observable trace of `_post_with_retries`: the sleeps performed in order
(one per retried attempt) and how it ended.  `attempts` counts issued HTTP
requests. -/
structure PostOut where
  sleeps : List ℚ
  attempts : Nat
  result : PostResult
deriving DecidableEq

/-- Loop of `_post_with_retries` (`agent.py` lines 40-80), structurally
recursive on the remaining attempt budget `fuel = max_retries - attempt`.
Falling out of the loop raises `last_exc` when set. -/
def postLoop (script : Nat → HttpAttempt) (jitter : Nat → ℚ) :
    Nat → Nat → Option ReqError → PostOut
  | _, 0, lastExc =>
    ⟨[], 0, match lastExc with
      | some e => .raised e
      | none => .noneReturned⟩
  | a, fuel + 1, _ =>
    match stepOf script jitter a with
    | .retryWith sleep err =>
      let o := postLoop script jitter (a + 1) fuel (some err)
      ⟨sleep :: o.sleeps, o.attempts + 1, o.result⟩
    | .raiseNow err => ⟨[], 1, .raised err⟩
    | .succeedNow => ⟨[], 1, .success a⟩

/-- `_post_with_retries` (`agent.py` lines 37-80) over a scripted sequence
of attempt outcomes and jitter draws. -/
def postWithRetries (script : Nat → HttpAttempt) (jitter : Nat → ℚ)
    (maxRetries : Nat) : PostOut :=
  postLoop script jitter 0 maxRetries none

/-- Retriable attempts: rate limit, transient server error, network error. -/
def retriable : HttpAttempt → Bool
  | .netErr _ => true
  | .response s _ _ => s == 429 || (500 ≤ s ∧ s < 600)

/-- Error recorded by a retried attempt (`last_exc`). -/
def errOf : HttpAttempt → ReqError
  | .netErr m => .net m
  | .response s _ _ => .http s

/-- Constructor tag of an event, for stating event sequences. -/
def evKind : Event → String
  | .modelChunk _ => "model_chunk"
  | .toolCall _ _ => "tool_call"
  | .toolResult _ _ _ => "tool_result"
  | .reasoning _ => "reasoning"
  | .final _ => "final"

/-- Texts of the final events of a trace. -/
def finalTexts (evs : List Event) : List String :=
  evs.filterMap (fun e => match e with | .final t => some t | _ => none)

/-- Texts of the reasoning events of a trace. -/
def reasoningTexts (evs : List Event) : List String :=
  evs.filterMap (fun e => match e with | .reasoning t => some t | _ => none)

/-- Test for a reasoning event. -/
def isReasoningB : Event → Bool
  | .reasoning _ => true
  | _ => false

/-- Test for a tool-call event. -/
def isToolCallB : Event → Bool
  | .toolCall _ _ => true
  | _ => false

/-- Preview text of a tool-result event (empty for other events). -/
def previewText : Event → String
  | .toolResult _ p _ => p
  | _ => ""

/-- Default event for positional lookups in statements. -/
def defaultEvent : Event := .final ""

/-- Number of tool-role messages in a conversation state. -/
def countToolRole (msgs : List Message) : Nat :=
  (msgs.filter (fun m => m.role == "tool")).length

/-- Test whether an execution ended by an uncaught exception. -/
def isCrashedB : Outcome → Bool
  | .crashed _ => true
  | _ => false

/-- Test whether an execution yielded a final event and returned. -/
def isFinishedB : Outcome → Bool
  | .finished _ => true
  | _ => false

/-- Client state with both environment variables unset. -/
def ghNone : GhState := ⟨.null, .null⟩

/-- Oracle used by the concrete scenarios: `get_file_contents` knows the
file `a.py` with content `x=1`; searches succeed with no matches. -/
def oracleFile : GhOracle :=
  ⟨fun _ _ => .ok [],
   fun p => match p with | .str "a.py" => .ok "x=1" | _ => .error "nope",
   fun _ => .ok (.arr []),
   .ok (.obj []),
   .ok []⟩

/-- Oracle whose `get_file_contents` raises; used by the boundary witness. -/
def oracleBoom : GhOracle :=
  ⟨fun _ _ => .ok [],
   fun _ => .error "boom",
   fun _ => .ok (.arr []),
   .ok (.obj []),
   .ok []⟩

/-- A 3990-character file body, long enough that the serialized tool result
exceeds the 4000-character cap. -/
def longContent : String := String.mk (List.replicate 3990 'a')

/-- Oracle whose `get_file_contents` returns the long body. -/
def oracleLong : GhOracle :=
  ⟨fun _ _ => .ok [],
   fun _ => .ok longContent,
   fun _ => .ok (.arr []),
   .ok (.obj []),
   .ok []⟩

/-- Embedded model instruction carrying a non-string `query` value. -/
def c1Text : String :=
  "\x7b\"action\": \"_call_tool\", \"tool\": \"search_code\", \"args\": \x7b\"query\": 5\x7d\x7d"

/-- Script for the crash evaluation: one streamed reply with `c1Text`. -/
def c1Script : List TurnScript := [⟨⟨[c1Text], .done⟩, .exn "unused"⟩]

/-- Script for the native tool-call scenario: an empty streamed reply whose
blocking check returns one `get_file_contents` call, then a closing reply. -/
def c6Script : List TurnScript :=
  [⟨⟨[], .done⟩, .ok "" [⟨some "call_1", some "get_file_contents",
      some "\x7b\"path\": \"a.py\"\x7d"⟩]⟩,
   ⟨⟨["done"], .done⟩, .exn "unused"⟩]

/-- Embedded `search_code` instruction with a whitespace-laden query. -/
def c7Text : String :=
  "\x7b\"action\": \"_call_tool\", \"tool\": \"search_code\", \"args\": \x7b\"query\": \"  find   bug.py  \"\x7d\x7d"

/-- Script for the normalization scenario: the instruction, then a closing
reply. -/
def c7Script : List TurnScript :=
  [⟨⟨[c7Text], .done⟩, .exn "unused"⟩, ⟨⟨["ok"], .done⟩, .exn "unused"⟩]

/-- The embedded final-answer object of the extraction scenario. -/
def objTxt : String :=
  "\x7b\"action\":\"final_answer\",\"answer\":\"Bug found on line 5\"\x7d"

/-- Prose-wrapped final-answer object whose leading prose contains an
opening brace. -/
def c5CexText : String := "Note \x7b " ++ objTxt ++ " ok."

/-- Script for the brace-in-prose extraction scenario. -/
def c5CexScript : List TurnScript := [⟨⟨[c5CexText], .done⟩, .exn "unused"⟩]

/-- Embedded `get_file_contents` instruction used by the truncation
scenario. -/
def c8Text : String :=
  "\x7b\"action\": \"_call_tool\", \"tool\": \"get_file_contents\", \"args\": \x7b\"path\": \"a.py\"\x7d\x7d"

/-- Script for the truncation scenario: the instruction, then a closing
reply. -/
def c8Script : List TurnScript :=
  [⟨⟨[c8Text], .done⟩, .exn "unused"⟩, ⟨⟨["ok"], .done⟩, .exn "unused"⟩]

/-- The tool message appended during the native scenario. -/
def msg8w : Message :=
  ⟨"tool", "\x7b\"path\": \"a.py\", \"content\": \"x=1\"\x7d", [],
   some "call_1", some "get_file_contents"⟩

/-- Script answering every attempt with 429 and a `Retry-After: 2` header. -/
def script429 : Nat → HttpAttempt := fun _ => .response 429 (some "2") none

/-- Jitter draws fixed at zero. -/
def jitter0 : Nat → ℚ := fun _ => 0

/-- C9: invoking the `switch_repo` tool through `_call_tool` with any pair
of owner and repo strings always succeeds without consulting the GitHub
backend (the result does not depend on the oracle `o`, so no existence
validation can occur): it returns the message `Switched to repository:
owner/repo`, and on the resulting client state — which the loop threads into
every subsequent tool invocation, modelling the process-wide mutation —
`get_current_repo` returns `owner/repo`. -/
theorem claim9_switch_repo (owner repo : String) (o : GhOracle) (st : GhState) :
    callTool o st (.str "switch_repo")
        (.obj [("owner", .str owner), ("repo", .str repo)]) =
      (.obj [("message", .str ("Switched to repository: " ++ owner ++ "/" ++ repo)),
             ("new_repo", .str (owner ++ "/" ++ repo))],
       ⟨.str owner, .str repo⟩) ∧
    getCurrentRepo ⟨.str owner, .str repo⟩ = owner ++ "/" ++ repo :=
  ⟨rfl, rfl⟩

/-- C1: evaluation of the code at the failing input.  With an empty prior
history, a model reply consisting of the embedded instruction
`c1Text = \x7b"action": "_call_tool", "tool": "search_code", "args":
\x7b"query": 5\x7d\x7d` makes `ask_agent_stream` raise an uncaught
`TypeError` from `re.sub` on the non-string query (modelled as the `crashed`
outcome): the generator terminates without ever yielding a `final` event,
contradicting the claim that a terminating execution always yields exactly
one. -/
theorem claim1_crash_evaluation :
    isCrashedB (askAgentStream oracleFile c1Script ghNone "Is there a bug?" [] false)
        = true ∧
    finalTexts (askAgentStream oracleFile c1Script ghNone "Is there a bug?" []
        false).out.events = [] := by
  exact ⟨by decide, by decide⟩

/-- C6: with an empty streamed reply, a blocking reply carrying exactly one
native `get_file_contents` call for `a.py`, and a tool invocation returning
the content `x=1`, the loop emits one tool-call event, then one tool-result
event whose preview includes `x=1`, appends exactly one tool-role message,
and re-enters streaming for another iteration (the trailing model-chunk and
final events come from the second scripted turn) after exactly one blocking
native-check request. -/
theorem claim6_native_tool_flow :
    ((runLoop oracleFile false c6Script ghNone []).out.events.map evKind =
        ["tool_call", "tool_result", "model_chunk", "final"]) ∧
    ((runLoop oracleFile false c6Script ghNone []).out.events.getD 0 defaultEvent =
        .toolCall (.str "get_file_contents") (.obj [("path", .str "a.py")])) ∧
    (hasSub "x=1"
        (previewText ((runLoop oracleFile false c6Script ghNone []).out.events.getD 1
          defaultEvent)) = true) ∧
    (countToolRole (runLoop oracleFile false c6Script ghNone []).out.msgs = 1) ∧
    ((runLoop oracleFile false c6Script ghNone []).out.blockCalls = 1) ∧
    (isFinishedB (runLoop oracleFile false c6Script ghNone []) = true) := by
  exact ⟨by decide, rfl, by decide, by decide, by decide, by decide⟩

/-- C7 counterexample: on the text-embedded `search_code` dispatch with the
query `"  find   bug.py  "`, the loop yields two reasoning events before the
tool-call event (the normalization note and the strategy note), refuting the
claim that exactly one reasoning event is yielded. -/
theorem claim7_counterexample :
    (((runLoop oracleFile false c7Script ghNone []).out.events.takeWhile
        (fun e => !isToolCallB e)).filter isReasoningB).length = 2 := by
  decide

/-- C7 as amended: the normalization collapses the whitespace runs of
`"  find   bug.py  "` to `find bug.py`, and the loop yields exactly one
reasoning event describing the rewritten query, followed by one
strategy-note reasoning event; both precede the tool-call event, whose
arguments carry the collapsed query. -/
theorem claim7_normalization_events :
    (reasoningTexts (runLoop oracleFile false c7Script ghNone []).out.events =
      ["Normalized query from \x27  find   bug.py  \x27 to \x27find bug.py\x27 for reliable search",
       "Strategy: filename match + content search"]) ∧
    ((runLoop oracleFile false c7Script ghNone []).out.events.map evKind =
      ["model_chunk", "reasoning", "reasoning", "tool_call", "tool_result",
       "model_chunk", "final"]) ∧
    ((runLoop oracleFile false c7Script ghNone []).out.events.getD 3 defaultEvent =
      .toolCall (.str "search_code") (.obj [("query", .str "find bug.py")])) := by
  exact ⟨by decide, by decide, rfl⟩

/-- C5 counterexample: an assembled reply consisting of prose surrounding
the embedded object (`"Note \x7b "` before, `" ok."` after) whose leading
prose contains an opening brace.  The substring between the first opening
and last closing brace then fails to parse, so the loop emits the whole raw
text as the final answer instead of `Bug found on line 5`. -/
theorem claim5_counterexample :
    ((c5CexText == "Note \x7b " ++ objTxt ++ " ok.") = true) ∧
    (finalTexts (runLoop oracleFile false c5CexScript ghNone []).out.events =
      [c5CexText]) ∧
    ((c5CexText == "Bug found on line 5") = false) := by
  exact ⟨by decide, by decide, by decide⟩

/-- C2: `_call_tool` never lets an exception escape its boundary.  Every
exception `e` raised by the dispatch body is converted to the failure result
`Tool call failed: e` with the client state unchanged; in particular an
unrecognized tool name yields the failure result saying the tool is unknown,
and an exception raised by the underlying GitHub-client call (here the
`get_file_contents` collaborator) is converted to a failure result carrying
the exception's description. -/
theorem claim2_call_tool_boundary (o : GhOracle) (st : GhState) (tool args : Json) :
    (∀ e, callToolCore o st tool args = .error e →
      callTool o st tool args = (toolFailure e, st)) ∧
    (isKnownTool tool = false →
      callTool o st tool args = (toolFailure ("Unknown tool: " ++ pyStr tool), st)) ∧
    (∀ p e, argGet args "path" (.str "") = .ok p →
      o.getFileContents p = .error e →
      callTool o st (.str "get_file_contents") args = (toolFailure e, st)) := by
  refine ⟨fun e h => ?_, fun h => ?_, fun p e hp he => ?_⟩
  · unfold callTool
    rw [h]
  · have hcore : callToolCore o st tool args = .error ("Unknown tool: " ++ pyStr tool) := by
      unfold isKnownTool at h
      simp only [Bool.or_eq_false_iff] at h
      obtain ⟨⟨⟨⟨⟨h1, h2⟩, h3⟩, h4⟩, h5⟩, h6⟩ := h
      unfold callToolCore
      simp [h1, h2, h3, h4, h5, h6]
    unfold callTool
    rw [hcore]
  · unfold callTool callToolCore
    have h1 : jsonIsStr (Json.str "get_file_contents") "search_code" = false := rfl
    have h2 : jsonIsStr (Json.str "get_file_contents") "get_file_contents" = true := rfl
    rw [h1, h2]
    simp only [Bool.false_eq_true, if_false, if_true, hp, he]

/-- C2 witness: the boundary theorem applied at the unknown tool name
`frobnicate` and at an oracle whose `get_file_contents` raises `boom`. -/
theorem claim2_witness :
    (isKnownTool (.str "frobnicate") = false) ∧
    callTool oracleBoom ghNone (.str "frobnicate") (.obj []) =
      (toolFailure ("Unknown tool: " ++ pyStr (.str "frobnicate")), ghNone) ∧
    callTool oracleBoom ghNone (.str "get_file_contents")
        (.obj [("path", .str "a")]) = (toolFailure "boom", ghNone) :=
  ⟨by decide,
   (claim2_call_tool_boundary oracleBoom ghNone (.str "frobnicate") (.obj [])).2.1
     (by decide),
   (claim2_call_tool_boundary oracleBoom ghNone (.str "get_file_contents")
       (.obj [("path", .str "a")])).2.2 (.str "a") "boom" rfl rfl⟩

/-- C4: whenever the assembled streamed text is non-empty after stripping
and carries no parseable embedded JSON instruction, the loop terminates
after exactly one iteration (the result does not depend on the rest of the
script), yields exactly the streamed chunks followed by one final event
carrying the assembled text, and issues zero blocking native-check
requests. -/
theorem claim4_single_iteration (o : GhOracle) (showRaw : Bool) (b : BlockReply)
    (rest : List TurnScript) (st : GhState) (msgs : List Message)
    (chunks : List String)
    (h1 : ¬ pyStrip (assembledOf chunks) = "")
    (h2 : jsonParse (pyExtract (pyStrip (assembledOf chunks))) = none) :
    runLoop o showRaw (⟨⟨chunks, .done⟩, b⟩ :: rest) st msgs =
      .finished ⟨chunkEvents chunks ++ [.final (assembledOf chunks)], msgs, st, 0⟩ := by
  have hb : (pyStrip (assembledOf chunks) == "") = false := by
    simpa using h1
  unfold runLoop iterStep fallbackStep
  simp only [hb, h2, Bool.false_eq_true, if_false]
  rfl

/-- C4 witness: the single-iteration theorem applied to the streamed reply
`Hello`. -/
theorem claim4_witness :
    (¬ pyStrip (assembledOf ["Hello"]) = "") ∧
    (jsonParse (pyExtract (pyStrip (assembledOf ["Hello"]))) = none) ∧
    runLoop oracleFile false (⟨⟨["Hello"], .done⟩, .exn "unused"⟩ :: []) ghNone [] =
      .finished ⟨chunkEvents ["Hello"] ++ [.final (assembledOf ["Hello"])],
        [], ghNone, 0⟩ :=
  ⟨by decide, by rfl,
   claim4_single_iteration oracleFile false (.exn "unused") [] ghNone [] ["Hello"]
     (by decide) (by rfl)⟩

/-- C10: a streamed reply whose assembled text strips to the empty string is
treated exactly like an empty reply: no final event is emitted for it;
instead the loop issues the one blocking native tool-call check and — when
that check reports no tool calls — appends the steering message asking for a
concise final answer and iterates again (the run equals the run over the
remaining script with the steering message appended, with this iteration
contributing only its pass-through chunk events and one blocking request). -/
theorem claim10_whitespace_empty (o : GhOracle) (showRaw : Bool) (content : String)
    (rest : List TurnScript) (st : GhState) (msgs : List Message)
    (chunks : List String)
    (h1 : pyStrip (assembledOf chunks) = "") :
    runLoop o showRaw (⟨⟨chunks, .done⟩, .ok content []⟩ :: rest) st msgs =
      Outcome.prepend (chunkEvents chunks) 1
        (runLoop o showRaw rest st (msgs ++ [steerConcise])) := by
  have hp : jsonParse (pyExtract "") = none := rfl
  simp only [runLoop, iterStep, fallbackStep, h1, hp, beq_self_eq_true, if_true,
    List.isEmpty_nil, attachEv, List.append_nil]

/-- C10 witness: the whitespace theorem applied to the streamed chunks
`["  ", "\n"]`. -/
theorem claim10_witness :
    (pyStrip (assembledOf ["  ", "\n"]) = "") ∧
    runLoop oracleFile false (⟨⟨["  ", "\n"], .done⟩, .ok "" []⟩ :: []) ghNone [] =
      Outcome.prepend (chunkEvents ["  ", "\n"]) 1
        (runLoop oracleFile false [] ghNone ([] ++ [steerConcise])) :=
  ⟨by decide,
   claim10_whitespace_empty oracleFile false "" [] ghNone [] ["  ", "\n"] (by decide)⟩

/-- Truncation `s[:n]` never yields more than `n` characters. -/
theorem pyTake_length_le (n : Nat) (s : String) : (pyTake n s).length ≤ n := by
  show (s.data.take n).length ≤ n
  rw [List.length_take]
  exact min_le_left _ _

/-- The fallback-path tool message is the 13-character marker plus the
4000-capped dump. -/
theorem fallbackToolMsg_length_le (r : Json) :
    (fallbackToolMsg r).content.length ≤ 4013 := by
  show ("TOOL_RESULT: " ++ pyTake 4000 (dumps r)).length ≤ 4013
  rw [String.length_append]
  have h13 : ("TOOL_RESULT: " : String).length = 13 := rfl
  have := pyTake_length_le 4000 (dumps r)
  omega

/-- Escaping a run of `a` characters is the identity. -/
theorem foldr_esc_replicate (n : Nat) :
    (List.replicate n 'a').foldr (fun c acc => escChar c ++ acc) ['"'] =
      List.replicate n 'a' ++ ['"'] := by
  induction n with
  | zero => rfl
  | succ k ih =>
    rw [List.replicate_succ, List.foldr_cons, ih]
    rfl

/-- Serializing a run of `a` characters adds only the two quotes. -/
theorem dumpStr_replicate_a (n : Nat) :
    dumpStr (String.mk (List.replicate n 'a')) =
      String.mk ('"' :: (List.replicate n 'a' ++ ['"'])) := by
  unfold dumpStr
  rw [show (String.mk (List.replicate n 'a')).data = List.replicate n 'a' from rfl]
  rw [foldr_esc_replicate]

/-- Length of the serialized run of `a` characters. -/
theorem dumpStr_replicate_a_length (n : Nat) :
    (dumpStr (String.mk (List.replicate n 'a'))).length = n + 2 := by
  rw [dumpStr_replicate_a]
  show ('"' :: (List.replicate n 'a' ++ ['"'])).length = n + 2
  simp [List.length_append, List.length_replicate]

/-- Length of the serialized long file body. -/
theorem dumpStr_longContent_length : (dumpStr longContent).length = 3992 := by
  rw [show longContent = String.mk (List.replicate 3990 'a') from rfl,
    dumpStr_replicate_a_length]

/-- Length of the serialized tool result of the truncation scenario. -/
theorem c8_dump_length :
    (dumps (.obj [("path", .str "a.py"), ("content", .str longContent)])).length
      = 4021 := by
  have h1 : (dumpStr "path").length = 6 := rfl
  have h2 : (dumpStr "a.py").length = 6 := rfl
  have h3 : (dumpStr "content").length = 9 := rfl
  have h4 : ((": " : String)).length = 2 := rfl
  have h5 : ((", " : String)).length = 2 := rfl
  have h6 : (("\x7b" : String)).length = 1 := rfl
  have h7 : (("\x7d" : String)).length = 1 := rfl
  simp only [dumps, dumpFields, String.length_append, h1, h2, h3, h4, h5, h6, h7,
    dumpStr_longContent_length]

/-- C8 counterexample: on the text-embedded path, with `get_file_contents`
returning a 3990-character body, the loop appends its tool result as an
assistant message whose content is the `TOOL_RESULT: ` marker plus the
4000-capped dump — 4013 characters, exceeding the claimed 4000-character
bound for appended tool results. -/
theorem claim8_counterexample :
    ((runLoop oracleLong false c8Script ghNone []).out.msgs =
      [fallbackToolMsg (.obj [("path", .str "a.py"), ("content", .str longContent)]),
       steerFallback]) ∧
    (((runLoop oracleLong false c8Script ghNone []).out.msgs.getD 0
        steerConcise).content.length = 4013) ∧
    (4000 < ((runLoop oracleLong false c8Script ghNone []).out.msgs.getD 0
        steerConcise).content.length) := by
  have hrun : (runLoop oracleLong false c8Script ghNone []).out.msgs =
      [fallbackToolMsg (.obj [("path", .str "a.py"), ("content", .str longContent)]),
       steerFallback] := rfl
  have hlen : (fallbackToolMsg
      (.obj [("path", .str "a.py"), ("content", .str longContent)])).content.length
        = 4013 := by
    show ("TOOL_RESULT: " ++ pyTake 4000
      (dumps (.obj [("path", .str "a.py"), ("content", .str longContent)]))).length
        = 4013
    rw [String.length_append]
    have h13 : ("TOOL_RESULT: " : String).length = 13 := rfl
    have ht : (pyTake 4000
        (dumps (.obj [("path", .str "a.py"), ("content", .str longContent)]))).length
          = 4000 := by
      show ((dumps (.obj [("path", .str "a.py"),
        ("content", .str longContent)])).data.take 4000).length = 4000
      rw [List.length_take]
      have hd : (dumps (.obj [("path", .str "a.py"),
          ("content", .str longContent)])).data.length = 4021 := c8_dump_length
      rw [hd]
      rfl
    rw [h13, ht]
  refine ⟨hrun, ?_, ?_⟩
  · rw [hrun]
    exact hlen
  · rw [hrun]
    rw [show ([fallbackToolMsg (.obj [("path", .str "a.py"),
        ("content", .str longContent)]), steerFallback].getD 0 steerConcise) =
      fallbackToolMsg (.obj [("path", .str "a.py"), ("content", .str longContent)])
      from rfl, hlen]
    omega

/-- Native-path tool messages have tool role and 4000-capped content. -/
theorem nativeCalls_msgs_bound (o : GhOracle) (showRaw : Bool) :
    ∀ (tcs : List ToolCallRec) (st : GhState) (m : Message),
      m ∈ (nativeCalls o showRaw st tcs).newMsgs →
        m.role = "tool" ∧ m.content.length ≤ 4000 := by
  intro tcs
  induction tcs with
  | nil =>
    intro st m hm
    simp [nativeCalls] at hm
  | cons tc rest ih =>
    intro st m hm
    simp only [nativeCalls] at hm
    rcases List.mem_cons.mp hm with h | h
    · subst h
      exact ⟨rfl, pyTake_length_le 4000 _⟩
    · exact ih _ m h

/-- An iteration result with prepended events is a continue only when the
underlying result is the same continue. -/
theorem attachEv_goI (pre : List Event) (r : IterRes) (evs : List Event)
    (nm : List Message) (st' : GhState) (h : attachEv pre r = .goI evs nm st') :
    ∃ evs0, r = .goI evs0 nm st' := by
  cases r with
  | finishI e => exact absurd h (by simp [attachEv])
  | crashI e => exact absurd h (by simp [attachEv])
  | goI e m s =>
    refine ⟨e, ?_⟩
    injection h with h1 h2 h3
    rw [h2, h3]

/-- The fallback path never appends a tool-role message (it appends either
the concise steering message, or the `TOOL_RESULT` assistant message plus
the fallback steering message). -/
theorem fallbackStep_goI_msgs (o : GhOracle) (showRaw : Bool) (st : GhState)
    (a : String) (evs : List Event) (nm : List Message) (st' : GhState)
    (h : fallbackStep o showRaw st a = .goI evs nm st') :
    ∀ m ∈ nm, m.role ≠ "tool" := by
  simp only [fallbackStep] at h
  split at h
  · split at h
    · injection h with h1 h2 h3
      subst h2
      intro m hm
      rcases List.mem_singleton.mp hm with rfl
      simp [steerConcise]
    · exact absurd h (by simp)
  · split at h
    · exact absurd h (by simp)
    · split at h
      · exact absurd h (by simp)
      · split at h
        · exact absurd h (by simp)
        · injection h with h1 h2 h3
          subst h2
          intro m hm
          rcases List.mem_cons.mp hm with rfl | hm
          · simp [fallbackToolMsg]
          · rcases List.mem_singleton.mp hm with rfl
            simp [steerFallback]

/-- Any tool-role message appended by one continuing iteration is
4000-capped (the only tool-role appends are the native-path tool messages). -/
theorem iterStep_goI_msgs (o : GhOracle) (showRaw : Bool) (t : TurnScript)
    (st : GhState) (evs : List Event) (nm : List Message) (st' : GhState)
    (bc : Nat) (h : iterStep o showRaw t st = (.goI evs nm st', bc)) :
    ∀ m ∈ nm, m.role = "tool" → m.content.length ≤ 4000 := by
  obtain ⟨⟨chunks, ending⟩, block⟩ := t
  simp only [iterStep] at h
  split at h
  · simp at h
  · simp at h
  · split at h
    · split at h
      · split at h
        · injection h with h1 h2
          obtain ⟨evs0, hf⟩ := attachEv_goI _ _ _ _ _ h1
          intro m hm hrole
          exact absurd hrole (fallbackStep_goI_msgs _ _ _ _ _ _ _ hf m hm)
        · injection h with h1 h2
          injection h1 with he hmsgs hst
          intro m hm hrole
          rw [← hmsgs] at hm
          rcases List.mem_cons.mp hm with rfl | hm2
          · exact absurd hrole (by simp [assistantToolCallMsg])
          · rcases List.mem_append.mp hm2 with hm3 | hm3
            · exact (nativeCalls_msgs_bound o showRaw _ st m hm3).2
            · rcases List.mem_singleton.mp hm3 with rfl
              exact absurd hrole (by simp [steerNative])
      · injection h with h1 h2
        obtain ⟨evs0, hf⟩ := attachEv_goI _ _ _ _ _ h1
        intro m hm hrole
        exact absurd hrole (fallbackStep_goI_msgs _ _ _ _ _ _ _ hf m hm)
    · injection h with h1 h2
      obtain ⟨evs0, hf⟩ := attachEv_goI _ _ _ _ _ h1
      intro m hm hrole
      exact absurd hrole (fallbackStep_goI_msgs _ _ _ _ _ _ _ hf m hm)

/-- Prepending events does not change the final conversation state. -/
theorem out_prepend_msgs (evs : List Event) (bc : Nat) (x : Outcome) :
    (Outcome.prepend evs bc x).out.msgs = x.out.msgs := by
  cases x <;> rfl

/-- Every message in the final conversation state of a run was either
already in the initial state or satisfies the tool-message cap. -/
theorem runLoop_msgs_bound (o : GhOracle) (showRaw : Bool) :
    ∀ (script : List TurnScript) (st : GhState) (msgs : List Message)
      (m : Message),
      m ∈ (runLoop o showRaw script st msgs).out.msgs →
      m ∈ msgs ∨ (m.role = "tool" → m.content.length ≤ 4000) := by
  intro script
  induction script with
  | nil =>
    intro st msgs m hm
    exact Or.inl hm
  | cons t rest ih =>
    intro st msgs m hm
    simp only [runLoop] at hm
    rcases hit : iterStep o showRaw t st with ⟨ir, bc⟩
    rw [hit] at hm
    cases ir with
    | finishI evs => exact Or.inl hm
    | crashI evs => exact Or.inl hm
    | goI evs nm st' =>
      rw [out_prepend_msgs] at hm
      rcases ih st' (msgs ++ nm) m hm with hin | hok
      · rcases List.mem_append.mp hin with hin2 | hin2
        · exact Or.inl hin2
        · exact Or.inr (iterStep_goI_msgs o showRaw t st evs nm st' bc hit m hin2)
      · exact Or.inr hok

/-- C8 as amended: on the native path every tool-role message appended to
Conversation State by the loop has content truncated to at most 4000
characters, while on the text-embedded fallback path the tool result is
appended as an assistant message consisting of the 13-character
`TOOL_RESULT: ` marker plus the 4000-capped dump, hence at most 4013
characters (the claimed uniform 4000-character bound fails there, see the
counterexample). -/
theorem claim8_truncation_bounds :
    (∀ (o : GhOracle) (showRaw : Bool) (script : List TurnScript) (st : GhState)
        (msgs : List Message) (m : Message),
      m ∈ (runLoop o showRaw script st msgs).out.msgs → m ∉ msgs →
      m.role = "tool" → m.content.length ≤ 4000) ∧
    (∀ r : Json, (fallbackToolMsg r).content.length ≤ 4013) := by
  refine ⟨fun o showRaw script st msgs m hm hnot hrole => ?_, fallbackToolMsg_length_le⟩
  rcases runLoop_msgs_bound o showRaw script st msgs m hm with h | h
  · exact absurd h hnot
  · exact h hrole

/-- C8 witness: the truncation bound applied to the tool message appended
during the native scenario. -/
theorem claim8_witness :
    (msg8w ∈ (runLoop oracleFile false c6Script ghNone []).out.msgs) ∧
    msg8w.content.length ≤ 4000 :=
  ⟨by decide,
   claim8_truncation_bounds.1 oracleFile false c6Script ghNone [] msg8w (by decide)
     (by decide) (by decide)⟩

/-- A retried attempt sleeps exactly the duration `sleepForAttempt`
prescribes. -/
theorem stepOf_retry_sleep (script : Nat → HttpAttempt) (jitter : Nat → ℚ)
    (a : Nat) (s : ℚ) (e : ReqError)
    (h : stepOf script jitter a = .retryWith s e) :
    s = sleepForAttempt (script a) a (jitter a) := by
  unfold stepOf at h
  split at h
  next m heq =>
    injection h with h1 h2
    rw [heq]
    exact h1.symm
  next st ra xra heq =>
    rw [heq]
    split at h
    · injection h with h1 h2
      exact h1.symm
    · split at h
      · injection h with h1 h2
        exact h1.symm
      · split at h
        · exact StepKind.noConfusion h
        · exact StepKind.noConfusion h

/-- A retriable attempt (429, 5xx or network error) always takes the
sleep-and-retry step, recording its error. -/
theorem stepOf_retriable (script : Nat → HttpAttempt) (jitter : Nat → ℚ)
    (a : Nat) (h : retriable (script a) = true) :
    stepOf script jitter a =
      .retryWith (sleepForAttempt (script a) a (jitter a)) (errOf (script a)) := by
  rcases hsc : script a with ⟨st, ra, xra⟩ | m
  · rw [hsc] at h
    unfold retriable at h
    by_cases h429 : (st == 429) = true
    · have : st = 429 := by simpa using h429
      subst this
      simp [stepOf, hsc, errOf]
    · have h5 : 500 ≤ st ∧ st < 600 := by
        simp [h429] at h
        simpa using h
      simp [stepOf, hsc, errOf, h429, h5]
  · simp [stepOf, hsc, errOf]

/-- Characterization of the retry loop: at most `fuel` requests are issued;
the `j`-th recorded sleep is the duration prescribed for attempt `a + j`;
and when every attempt in the budget is retriable, the loop exhausts the
budget and raises the error of the last attempt. -/
theorem postLoop_master (script : Nat → HttpAttempt) (jitter : Nat → ℚ) :
    ∀ (fuel a : Nat) (last : Option ReqError),
      (postLoop script jitter a fuel last).attempts ≤ fuel ∧
      (∀ j, j < (postLoop script jitter a fuel last).sleeps.length →
        (postLoop script jitter a fuel last).sleeps.getD j 0 =
          sleepForAttempt (script (a + j)) (a + j) (jitter (a + j))) ∧
      (0 < fuel → (∀ j, j < fuel → retriable (script (a + j)) = true) →
        (postLoop script jitter a fuel last).result =
          .raised (errOf (script (a + fuel - 1)))) := by
  intro fuel
  induction fuel with
  | zero =>
    intro a last
    refine ⟨Nat.le_refl 0, ?_, ?_⟩
    · intro j hj
      simp [postLoop] at hj
    · intro hpos _
      exact absurd hpos (by omega)
  | succ f ih =>
    intro a last
    rcases hstep : stepOf script jitter a with ⟨s, e⟩ | e | _
    · have hs := stepOf_retry_sleep script jitter a s e hstep
      refine ⟨?_, ?_, ?_⟩
      · simp only [postLoop, hstep]
        have := (ih (a + 1) (some e)).1
        omega
      · intro j hj
        simp only [postLoop, hstep] at hj ⊢
        cases j with
        | zero =>
          simpa using hs
        | succ k =>
          have hlen : k < (postLoop script jitter (a + 1) f (some e)).sleeps.length := by
            simpa using hj
          have hk := (ih (a + 1) (some e)).2.1 k hlen
          have hidx : a + 1 + k = a + (k + 1) := by omega
          rw [List.getD_cons_succ, hk, hidx]
      · intro hpos hall
        simp only [postLoop, hstep]
        have hra : retriable (script a) = true := by
          simpa using hall 0 (by omega)
        have hchar := stepOf_retriable script jitter a hra
        rw [hstep] at hchar
        injection hchar with hs2 he2
        cases f with
        | zero =>
          simp only [postLoop]
          rw [he2]
          simp
        | succ f2 =>
          have hrest := (ih (a + 1) (some e)).2.2 (by omega) (fun j hj => by
            have hidx : a + 1 + j = a + (j + 1) := by omega
            rw [hidx]
            exact hall (j + 1) (by omega))
          rw [hrest]
          have hidx : a + 1 + (f2 + 1) - 1 = a + (f2 + 1 + 1) - 1 := by omega
          rw [hidx]
    · refine ⟨by simp [postLoop, hstep], ?_, ?_⟩
      · intro j hj
        simp [postLoop, hstep] at hj
      · intro hpos hall
        have hra : retriable (script a) = true := by
          simpa using hall 0 (by omega)
        have hchar := stepOf_retriable script jitter a hra
        rw [hstep] at hchar
        exact StepKind.noConfusion hchar
    · refine ⟨by simp [postLoop, hstep], ?_, ?_⟩
      · intro j hj
        simp [postLoop, hstep] at hj
      · intro hpos hall
        have hra : retriable (script a) = true := by
          simpa using hall 0 (by omega)
        have hchar := stepOf_retriable script jitter a hra
        rw [hstep] at hchar
        exact StepKind.noConfusion hchar

/-- Sleep chosen for a 429 response carrying `Retry-After: 2`. -/
theorem sleepFor_retry_after_2 (i : Nat) (j : ℚ) :
    sleepForAttempt (.response 429 (some "2") none) i j = 2 := by
  have hp : parseFloatQ "2" = some (2 : ℚ) := by
    show some ((2 : ℚ) + (0 : ℚ) / ((10 : ℚ) ^ (0 : Nat))) = some (2 : ℚ)
    norm_num
  simp [sleepForAttempt, firstTruthy, hp]

/-- C3: for every attempt script and jitter draw, `_post_with_retries`
issues at most `max_retries` request attempts; every recorded sleep is the
duration prescribed for its attempt; an attempt answered 429 with
`Retry-After: 2` sleeps at least 2 seconds before the retry; an attempt
with no retry hint sleeps the jittered exponential backoff capped at 30
seconds; and when every attempt in the budget fails retriably, the function
raises the last observed error. -/
theorem claim3_retry_policy (script : Nat → HttpAttempt) (jitter : Nat → ℚ)
    (maxRetries : Nat) :
    ((postWithRetries script jitter maxRetries).attempts ≤ maxRetries) ∧
    (∀ i, i < (postWithRetries script jitter maxRetries).sleeps.length →
      (postWithRetries script jitter maxRetries).sleeps.getD i 0 =
        sleepForAttempt (script i) i (jitter i)) ∧
    (∀ i, i < (postWithRetries script jitter maxRetries).sleeps.length →
      script i = .response 429 (some "2") none →
      (2 : ℚ) ≤ (postWithRetries script jitter maxRetries).sleeps.getD i 0) ∧
    (∀ i, i < (postWithRetries script jitter maxRetries).sleeps.length →
      script i = .response 429 none none →
      (postWithRetries script jitter maxRetries).sleeps.getD i 0 =
        min 30 ((2 : ℚ) ^ i + jitter i)) ∧
    (0 < maxRetries → (∀ i, i < maxRetries → retriable (script i) = true) →
      (postWithRetries script jitter maxRetries).result =
        .raised (errOf (script (maxRetries - 1)))) := by
  have hm := postLoop_master script jitter maxRetries 0 none
  refine ⟨hm.1, ?_, ?_, ?_, ?_⟩
  · intro i hi
    have := hm.2.1 i hi
    simpa using this
  · intro i hi hsc
    have h2 : (postWithRetries script jitter maxRetries).sleeps.getD i 0 =
        sleepForAttempt (script i) i (jitter i) := by
      simpa using hm.2.1 i hi
    rw [h2, hsc, sleepFor_retry_after_2]
  · intro i hi hsc
    have h2 : (postWithRetries script jitter maxRetries).sleeps.getD i 0 =
        sleepForAttempt (script i) i (jitter i) := by
      simpa using hm.2.1 i hi
    rw [h2, hsc]
    rfl
  · intro hpos hall
    have := hm.2.2 hpos (fun j hj => by simpa using hall j hj)
    simpa using this

/-- C3 witness: the retry-policy theorem applied to a script answering
every attempt 429 with `Retry-After: 2` and the default budget of 6. -/
theorem claim3_witness :
    (0 < (postWithRetries script429 jitter0 6).sleeps.length) ∧
    ((postWithRetries script429 jitter0 6).sleeps.getD 0 0 = 2) ∧
    ((2 : ℚ) ≤ (postWithRetries script429 jitter0 6).sleeps.getD 0 0) ∧
    ((postWithRetries script429 jitter0 6).attempts ≤ 6) ∧
    ((postWithRetries script429 jitter0 6).result = .raised (.http 429)) := by
  have h := claim3_retry_policy script429 jitter0 6
  have hlen : 0 < (postWithRetries script429 jitter0 6).sleeps.length := by decide
  refine ⟨hlen, ?_, h.2.2.1 0 hlen rfl, h.1, ?_⟩
  · rw [h.2.1 0 hlen]
    exact sleepFor_retry_after_2 0 (jitter0 0)
  · exact h.2.2.2.2 (by omega) (fun i _ => rfl)

/-- Joining a single streamed chunk yields that chunk. -/
theorem strJoin_singleton (s : String) : strJoin [s] = s := by
  cases s with
  | mk data =>
    show String.mk ([data].flatten) = String.mk data
    simp

/-- Dropping a prefix of an append whose right part starts with a
non-matching character distributes over the left part. -/
theorem dropWhile_append_head (p : Char → Bool) (a b : List Char)
    (hb : ∃ c t, b = c :: t ∧ p c = false) :
    (a ++ b).dropWhile p = a.dropWhile p ++ b := by
  obtain ⟨c, t, rfl, hc⟩ := hb
  induction a with
  | nil => simp [List.dropWhile_cons, hc]
  | cons x xs ih =>
    by_cases hx : p x
    · simpa [List.dropWhile_cons, hx] using ih
    · simp [List.dropWhile_cons, hx]

/-- Absent characters have no first index. -/
theorem firstIdx_not_mem (c : Char) (l : List Char) (h : c ∉ l) :
    firstIdx c l = none := by
  induction l with
  | nil => rfl
  | cons x xs ih =>
    have hxc : (x == c) = false := by
      simp only [List.mem_cons] at h
      simp [beq_eq_false_iff_ne]
      intro hcontr
      exact h (Or.inl hcontr.symm)
    simp only [firstIdx, hxc, Bool.false_eq_true, if_false]
    rw [ih (fun hm => h (List.mem_cons_of_mem x hm))]
    rfl

/-- First index in an append whose left part lacks the character. -/
theorem firstIdx_append_none (c : Char) (a b : List Char)
    (ha : firstIdx c a = none) :
    firstIdx c (a ++ b) = (firstIdx c b).map (fun i => i + a.length) := by
  induction a with
  | nil =>
    simp only [List.nil_append, List.length_nil]
    cases firstIdx c b <;> simp
  | cons x xs ih =>
    have hxc : (x == c) = false := by
      by_contra hcontr
      simp only [Bool.not_eq_false] at hcontr
      simp [firstIdx, hcontr] at ha
    simp only [firstIdx, hxc, Bool.false_eq_true, if_false] at ha ⊢
    have hxs : firstIdx c xs = none := by
      cases hfx : firstIdx c xs with
      | none => rfl
      | some i => rw [hfx] at ha; simp at ha
    rw [show xs.append b = xs ++ b from rfl, ih hxs]
    cases firstIdx c b with
    | none => simp
    | some i => simp; omega

/-- A list starting with `c` has first index 0 for `c`. -/
theorem firstIdx_head (c : Char) (l : List Char) (h : l.head? = some c) :
    firstIdx c l = some 0 := by
  cases l with
  | nil => simp at h
  | cons x xs =>
    have : x = c := by simpa using h
    simp [firstIdx, this]

/-- Python slice bounds for nonnegative indices clamp to the length. -/
theorem pySliceIdx_ofNat (n k : Nat) : pySliceIdx n (k : Int) = min k n := by
  unfold pySliceIdx
  rw [if_neg (by omega)]
  simp

/-- Brace-delimited extraction: when the leading part has no opening brace
and the trailing part no closing brace, the slice between the first opening
and last closing brace is exactly the wrapped object text. -/
theorem pyExtract_wrap (P O Q : List Char)
    (hP : '\x7b' ∉ P) (hQ : '\x7d' ∉ Q)
    (hO1 : O.head? = some '\x7b') (hO2 : O.reverse.head? = some '\x7d') :
    pyExtract (String.mk (P ++ O ++ Q)) = String.mk O := by
  have hOne : O ≠ [] := by
    cases O
    · simp at hO1
    · simp
  have hOQhead : (O ++ Q).head? = some '\x7b' := by
    cases O <;> simp_all
  have hfi : firstIdx '\x7b' (P ++ O ++ Q) = some P.length := by
    rw [List.append_assoc, firstIdx_append_none _ _ _ (firstIdx_not_mem _ _ hP),
      firstIdx_head _ _ hOQhead]
    simp
  have hrev : (P ++ O ++ Q).reverse = Q.reverse ++ (O.reverse ++ P.reverse) := by
    simp [List.reverse_append, List.append_assoc]
  have hQrev : '\x7d' ∉ Q.reverse := by simpa using hQ
  have hORPhead : (O.reverse ++ P.reverse).head? = some '\x7d' := by
    cases hor : O.reverse with
    | nil => rw [hor] at hO2; simp at hO2
    | cons c t =>
      have hc : c = '\x7d' := by rw [hor] at hO2; simpa using hO2
      simp [hc]
  have hli : lastIdx '\x7d' (P ++ O ++ Q) = some (P.length + O.length - 1) := by
    unfold lastIdx
    rw [hrev, firstIdx_append_none _ _ _ (firstIdx_not_mem _ _ hQrev),
      firstIdx_head _ _ hORPhead]
    show some ((P ++ O ++ Q).length - 1 - (0 + Q.reverse.length)) =
      some (P.length + O.length - 1)
    congr 1
    have hn : (P ++ O ++ Q).length = P.length + O.length + Q.length := by
      simp [List.length_append]
      omega
    rw [hn, List.length_reverse]
    omega
  simp only [pyExtract]
  rw [hfi, hli]
  congr 1
  show pySlice (P ++ O ++ Q) ((P.length : Nat) : Int)
    (((P.length + O.length - 1 : Nat) : Int) + 1) = O
  have hb : ((P.length + O.length - 1 : Nat) : Int) + 1 =
      ((P.length + O.length : Nat) : Int) := by
    have : 1 ≤ O.length := List.length_pos.mpr hOne
    omega
  unfold pySlice
  rw [hb, pySliceIdx_ofNat, pySliceIdx_ofNat]
  have hn : (P ++ O ++ Q).length = P.length + O.length + Q.length := by
    simp [List.length_append]
    omega
  have hmin1 : min P.length (P ++ O ++ Q).length = P.length := by
    rw [hn]; omega
  have hmin2 : min (P.length + O.length) (P ++ O ++ Q).length =
      P.length + O.length := by
    rw [hn]; omega
  rw [hmin1, hmin2]
  rw [show P.length + O.length = (P ++ O).length from (List.length_append _ _).symm]
  rw [show P ++ O ++ Q = (P ++ O) ++ Q from rfl, List.take_left]
  exact List.drop_left _ _

/-- Stripping whitespace around brace-wrapped text strips only the leading
part's head and the trailing part's tail. -/
theorem strip_wrap (P O Q : List Char)
    (hO1 : O.head? = some '\x7b') (hO2 : O.reverse.head? = some '\x7d') :
    stripL (P ++ O ++ Q) =
      P.dropWhile isPyWs ++ O ++ (Q.reverse.dropWhile isPyWs).reverse := by
  have hOQhead : ∃ c t, O ++ Q = c :: t ∧ isPyWs c = false := by
    cases O with
    | nil => simp at hO1
    | cons c t =>
      have hc : c = '\x7b' := by simpa using hO1
      exact ⟨c, t ++ Q, by simp, by rw [hc]; rfl⟩
  unfold stripL
  rw [List.append_assoc, dropWhile_append_head _ _ _ hOQhead]
  rw [show (P.dropWhile isPyWs ++ (O ++ Q)).reverse =
      Q.reverse ++ (O.reverse ++ (P.dropWhile isPyWs).reverse) from by
    simp [List.reverse_append, List.append_assoc]]
  have hORhead : ∃ c t,
      O.reverse ++ (P.dropWhile isPyWs).reverse = c :: t ∧ isPyWs c = false := by
    cases hor : O.reverse with
    | nil => rw [hor] at hO2; simp at hO2
    | cons c t =>
      have hc : c = '\x7d' := by rw [hor] at hO2; simpa using hO2
      exact ⟨c, t ++ (P.dropWhile isPyWs).reverse, by simp, by rw [hc]; rfl⟩
  rw [dropWhile_append_head _ _ _ hORhead]
  simp [List.reverse_append, List.reverse_reverse, List.append_assoc]

/-- C5 as amended: for every assembled reply of the form `pre ++ objTxt ++
post` — prose surrounding the embedded object — in which the leading prose
contains no opening brace and the trailing prose contains no closing brace,
the loop locates the object by taking the substring between the first
opening and last closing brace of the stripped text, terminates in that
iteration, and emits a final event whose text is exactly `Bug found on line
5`, discarding the surrounding prose.  (Without the brace conditions the
extraction can grab a larger, unparseable substring, see the
counterexample.) -/
theorem claim5_embedded_answer (pre post : String) (o : GhOracle)
    (showRaw : Bool) (b : BlockReply) (rest : List TurnScript) (st : GhState)
    (msgs : List Message)
    (hpre : '\x7b' ∉ pre.data) (hpost : '\x7d' ∉ post.data) :
    runLoop o showRaw (⟨⟨[pre ++ objTxt ++ post], .done⟩, b⟩ :: rest) st msgs =
      .finished ⟨[.modelChunk (pre ++ objTxt ++ post),
        .final "Bug found on line 5"], msgs, st, 0⟩ := by
  have hO1 : objTxt.data.head? = some '\x7b' := rfl
  have hO2 : objTxt.data.reverse.head? = some '\x7d' := by rfl
  have hObjne : objTxt.data ≠ [] := by decide
  have hdata : (pre ++ objTxt ++ post).data =
      pre.data ++ objTxt.data ++ post.data := by
    simp [String.data_append]
  have hassembled : assembledOf [pre ++ objTxt ++ post] = pre ++ objTxt ++ post :=
    strJoin_singleton _
  have hsne : ((pre ++ objTxt ++ post) == "") = false := by
    apply beq_eq_false_iff_ne.mpr
    intro hcontr
    have hd := congrArg String.data hcontr
    rw [hdata] at hd
    simp only [show ("" : String).data = [] from rfl, List.append_eq_nil] at hd
    exact hObjne hd.1.2
  have hstrip : pyStrip (pre ++ objTxt ++ post) = String.mk
      (pre.data.dropWhile isPyWs ++ objTxt.data ++
        (post.data.reverse.dropWhile isPyWs).reverse) := by
    show String.mk (stripL (pre ++ objTxt ++ post).data) = _
    rw [hdata, strip_wrap _ _ _ hO1 hO2]
  have hstripne : (pyStrip (pre ++ objTxt ++ post) == "") = false := by
    rw [hstrip]
    apply beq_eq_false_iff_ne.mpr
    intro hcontr
    have hd := congrArg String.data hcontr
    simp only [show ("" : String).data = [] from rfl,
      show (String.mk (pre.data.dropWhile isPyWs ++ objTxt.data ++
        (post.data.reverse.dropWhile isPyWs).reverse)).data =
        pre.data.dropWhile isPyWs ++ objTxt.data ++
          (post.data.reverse.dropWhile isPyWs).reverse from rfl,
      List.append_eq_nil] at hd
    exact hObjne hd.1.2
  have hex : pyExtract (pyStrip (pre ++ objTxt ++ post)) = objTxt := by
    rw [hstrip]
    have h1 : '\x7b' ∉ pre.data.dropWhile isPyWs :=
      fun hm => hpre ((List.dropWhile_sublist _).subset hm)
    have h2 : '\x7d' ∉ (post.data.reverse.dropWhile isPyWs).reverse := by
      intro hm
      have hm2 : '\x7d' ∈ post.data.reverse.dropWhile isPyWs := by simpa using hm
      have hm3 : '\x7d' ∈ post.data.reverse := (List.dropWhile_sublist _).subset hm2
      exact hpost (by simpa using hm3)
    exact pyExtract_wrap _ _ _ h1 h2 hO1 hO2
  have hparse : jsonParse objTxt = some (.obj [("action", .str "final_answer"),
      ("answer", .str "Bug found on line 5")]) := by rfl
  simp only [runLoop, iterStep, fallbackStep, hassembled, hstripne,
    Bool.false_eq_true, if_false, if_true, hex, hparse, chunkEvents,
    List.filter_cons, hsne, Bool.not_false, List.filter_nil, List.map_cons,
    List.map_nil]
  rfl

/-- C5 witness: the amended extraction theorem applied to the prose
`Sure: ` before and ` done.` after the embedded object. -/
theorem claim5_witness :
    ('\x7b' ∉ ("Sure: " : String).data) ∧ ('\x7d' ∉ (" done." : String).data) ∧
    runLoop oracleFile false
        (⟨⟨["Sure: " ++ objTxt ++ " done."], .done⟩, .exn "unused"⟩ :: [])
        ghNone [] =
      .finished ⟨[.modelChunk ("Sure: " ++ objTxt ++ " done."),
        .final "Bug found on line 5"], [], ghNone, 0⟩ :=
  ⟨by decide, by decide,
   claim5_embedded_answer "Sure: " " done." oracleFile false (.exn "unused") []
     ghNone [] (by decide) (by decide)⟩
